import Mathlib

/- Verification development for the goes_heat_flux repository.

   Shallow embedding of:
   - the nearest-station scan shared by asos_data_reader.py (asos_find) and
     vdtn/obs/ameriflux/reader.py (site_finder), over real-valued coordinates;
   - the latent-heat-flux model of phys/qe.py (q, rho, lhf) over the reals,
     with each division that can hit a zero denominator tracked by an Option
     (numpy emits a non-finite float there and raises nothing);
   - the GOES shortwave window masking of phys/sd.py (tail of s_d);
   - the hourly alignment of vdtn/obs/ameriflux/reader.py (csv_reader);
   - the square truncation of grid/smap.py (tail of main). -/

namespace GeoFinder

/-- GRS80 semi-major axis of Earth in meters, constant R of
asos_data_reader.py line 49 and reader.py lines 39 and 57. -/
def R : ℝ := 6378137

/-- Great-circle distance of asos_data_reader.py lines 53-56, duplicated
verbatim in reader.py lines 36-42; the local variable p = pi/180 is inlined. -/
noncomputable def distance (lat_loc lon_loc lat_asos lon_asos : ℝ) : ℝ :=
  2 * R * Real.arcsin (Real.sqrt (0.5 - Real.cos ((lat_asos - lat_loc) * (Real.pi / 180)) / 2 +
    Real.cos (lat_loc * (Real.pi / 180)) * Real.cos (lat_asos * (Real.pi / 180)) *
      (1 - Real.cos ((lon_asos - lon_loc) * (Real.pi / 180))) / 2))

/-- Station or site candidate: code string, latitude, longitude. -/
abbrev Candidate : Type := String × ℝ × ℝ

/-- Scan loop shared by asos_find and site_finder: keep a candidate exactly
when its distance is strictly below the running minimum. The function tag is
what the loop body stores on selection: asos_find stores the code with a K
prepended (line 72 of asos_data_reader.py), site_finder stores the code
itself (line 73 of reader.py). -/
noncomputable def find_loop (tag : String → String) (lat_loc lon_loc : ℝ) :
    List Candidate → ℝ × String → ℝ × String
  | [], acc => acc
  | cand :: rest, acc =>
    if distance lat_loc lon_loc cand.2.1 cand.2.2 < acc.1 then
      find_loop tag lat_loc lon_loc rest
        (distance lat_loc lon_loc cand.2.1 cand.2.2, tag cand.1)
    else
      find_loop tag lat_loc lon_loc rest acc

/-- Embedding of asos_find, asos_data_reader.py lines 58-78. The running
minimum starts at 2*pi*R, the station string starts empty, and the iteration
is over range(1, len), so the head of the candidate list is never examined. -/
noncomputable def asos_find (cands : List Candidate) (lat_loc lon_loc : ℝ) : String :=
  (find_loop (fun s => "K" ++ s) lat_loc lon_loc (cands.drop 1) (2 * Real.pi * R, "")).2

/-- Embedding of site_finder, reader.py lines 51-77; same scan, storing the
code unchanged. -/
noncomputable def site_finder (cands : List Candidate) (lat_crd lon_crd : ℝ) : String :=
  (find_loop (fun s => s) lat_crd lon_crd (cands.drop 1) (2 * Real.pi * R, "")).2

lemma R_pos : (0 : ℝ) < R := by unfold R; norm_num

/-- Every haversine distance is strictly below the initial running minimum
2*pi*R, because arcsin is bounded by pi/2. -/
lemma distance_lt_init (lat_loc lon_loc lat_asos lon_asos : ℝ) :
    distance lat_loc lon_loc lat_asos lon_asos < 2 * Real.pi * R := by
  unfold distance
  have h1 : Real.arcsin (Real.sqrt (0.5 -
      Real.cos ((lat_asos - lat_loc) * (Real.pi / 180)) / 2 +
      Real.cos (lat_loc * (Real.pi / 180)) * Real.cos (lat_asos * (Real.pi / 180)) *
        (1 - Real.cos ((lon_asos - lon_loc) * (Real.pi / 180))) / 2)) ≤ Real.pi / 2 :=
    Real.arcsin_le_pi_div_two _
  have hR : (0 : ℝ) < R := R_pos
  have hpi : (0 : ℝ) < Real.pi := Real.pi_pos
  nlinarith [h1]

/-- The distance from a point to itself at the origin is zero. -/
lemma distance_self_zero : distance 0 0 0 0 = 0 := by
  unfold distance
  norm_num [Real.cos_zero, Real.sqrt_zero, Real.arcsin_zero]

/-- The distance from the origin to the north pole reduces to
2*R*arcsin(sqrt(1/2)). -/
lemma distance_origin_pole : distance 0 0 90 0 = 2 * R * Real.arcsin (Real.sqrt (1 / 2)) := by
  unfold distance
  rw [show ((90 : ℝ) - 0) * (Real.pi / 180) = Real.pi / 2 by ring,
    show ((0 : ℝ)) * (Real.pi / 180) = 0 by ring,
    show ((0 : ℝ) - 0) * (Real.pi / 180) = 0 by ring,
    show (90 : ℝ) * (Real.pi / 180) = Real.pi / 2 by ring]
  rw [Real.cos_pi_div_two, Real.cos_zero]
  norm_num

/-- The distance from the origin to the north pole is strictly positive. -/
lemma distance_origin_pole_pos : 0 < distance 0 0 90 0 := by
  rw [distance_origin_pole]
  have h1 : 0 < Real.arcsin (Real.sqrt (1 / 2)) :=
    Real.arcsin_pos.mpr (Real.sqrt_pos.mpr (by norm_num))
  have hR : (0 : ℝ) < R := R_pos
  nlinarith

/-- The scan returns either the accumulator string or the tag of the code of
some candidate in the scanned list. -/
lemma find_loop_mem (tag : String → String) (la lo : ℝ) :
    ∀ (cs : List Candidate) (acc : ℝ × String),
      (find_loop tag la lo cs acc).2 = acc.2 ∨
        ∃ s ∈ cs.map Prod.fst, (find_loop tag la lo cs acc).2 = tag s := by
  intro cs
  induction cs with
  | nil =>
    intro acc
    left
    rfl
  | cons cand rest ih =>
    intro acc
    rw [find_loop]
    by_cases h : distance la lo cand.2.1 cand.2.2 < acc.1
    · rw [if_pos h]
      rcases ih (distance la lo cand.2.1 cand.2.2, tag cand.1) with h1 | ⟨s, hs, h2⟩
      · right
        exact ⟨cand.1, by simp, h1⟩
      · right
        exact ⟨s, by simp [hs], h2⟩
    · rw [if_neg h]
      rcases ih acc with h1 | ⟨s, hs, h2⟩
      · left
        exact h1
      · right
        exact ⟨s, by simp [hs], h2⟩

end GeoFinder

/-- C1: the candidate scan of asos_find and site_finder starts at index 1 and
therefore skips the first candidate. With candidates AAA at the query point
itself and BBB at the north pole, both finders return BBB even though AAA is
strictly closer (distance zero): the returned candidate does not minimize the
great-circle distance over the whole list, contradicting the claim. -/
theorem C1_thm :
    GeoFinder.site_finder [("AAA", 0, 0), ("BBB", 90, 0)] 0 0 = "BBB" ∧
    GeoFinder.asos_find [("AAA", 0, 0), ("BBB", 90, 0)] 0 0 = "KBBB" ∧
    GeoFinder.distance 0 0 0 0 < GeoFinder.distance 0 0 90 0 := by
  have hlt := GeoFinder.distance_lt_init 0 0 90 0
  refine ⟨?_, ?_, ?_⟩
  · unfold GeoFinder.site_finder
    simp [GeoFinder.find_loop, hlt]
  · unfold GeoFinder.asos_find
    simp [GeoFinder.find_loop, hlt]
  · rw [GeoFinder.distance_self_zero]
    exact GeoFinder.distance_origin_pole_pos

/-- C5 counterexample: on an empty candidate list both finders return the
empty string initial value instead of failing; no EmptyCandidateSet error
exists in the code. -/
theorem C5_cex :
    GeoFinder.asos_find [] 0 0 = "" ∧ GeoFinder.site_finder [] 0 0 = "" :=
  ⟨rfl, rfl⟩

/-- C5 amended: for every query coordinate, an empty candidate list makes
asos_find and site_finder return the empty-string identifier initialized
before the loop; the loop body never runs and nothing is raised. -/
theorem C5_fix (lat lon : ℝ) :
    GeoFinder.asos_find [] lat lon = "" ∧ GeoFinder.site_finder [] lat lon = "" :=
  ⟨rfl, rfl⟩

/-- C10 counterexample: a non-empty single-candidate list makes asos_find
return the empty string, which is not the letter K followed by any selected
candidate. -/
theorem C10_cex :
    GeoFinder.asos_find [("AAA", 0, 0)] 0 0 = "" ∧ ("" : String) ≠ "K" ++ "AAA" := by
  exact ⟨rfl, by decide⟩

/-- C10 amended: for every candidate list with at least two entries, asos_find
returns the letter K prepended to the code of some candidate in the tail of
the list, and when all stored codes share one length the returned identifier
is character-for-character different from every stored code. -/
theorem C10_fix (c0 c1 : GeoFinder.Candidate) (rest : List GeoFinder.Candidate)
    (lat lon : ℝ) (L : ℕ)
    (hlen : ∀ s ∈ (c0 :: c1 :: rest).map Prod.fst, s.length = L) :
    ∃ s ∈ ((c0 :: c1 :: rest).drop 1).map Prod.fst,
      GeoFinder.asos_find (c0 :: c1 :: rest) lat lon = "K" ++ s ∧
      ∀ t ∈ (c0 :: c1 :: rest).map Prod.fst, "K" ++ s ≠ t := by
  have key : ∃ s ∈ (c1 :: rest).map Prod.fst,
      GeoFinder.asos_find (c0 :: c1 :: rest) lat lon = "K" ++ s := by
    unfold GeoFinder.asos_find
    have hfire : GeoFinder.distance lat lon c1.2.1 c1.2.2 <
        ((2 * Real.pi * GeoFinder.R, ("" : String)) : ℝ × String).1 :=
      GeoFinder.distance_lt_init lat lon c1.2.1 c1.2.2
    rw [List.drop_succ_cons, List.drop_zero, GeoFinder.find_loop, if_pos hfire]
    rcases GeoFinder.find_loop_mem (fun s => "K" ++ s) lat lon rest
        (GeoFinder.distance lat lon c1.2.1 c1.2.2, "K" ++ c1.1) with h1 | ⟨s, hs, h2⟩
    · exact ⟨c1.1, by simp, h1⟩
    · exact ⟨s, by simp [hs], h2⟩
  obtain ⟨s, hs, heq⟩ := key
  refine ⟨s, by simpa using hs, heq, ?_⟩
  intro t ht hbad
  have h1 : s.length = L := hlen s (by simp at hs ⊢; tauto)
  have h2 : t.length = L := hlen t ht
  have h3 : ("K" ++ s).length = 1 + s.length := by
    rw [String.length_append]
    rfl
  rw [hbad, h2, h1] at h3
  omega

/-- C10 witness: the amended statement applied to a concrete two-candidate
list with three-letter codes. -/
theorem C10_fix_w :
    ∃ s ∈ (([("AAA", 0, 0), ("BBB", 90, 0)] : List GeoFinder.Candidate).drop 1).map Prod.fst,
      GeoFinder.asos_find [("AAA", 0, 0), ("BBB", 90, 0)] 0 0 = "K" ++ s ∧
      ∀ t ∈ ([("AAA", 0, 0), ("BBB", 90, 0)] : List GeoFinder.Candidate).map Prod.fst,
        "K" ++ s ≠ t := by
  have hlen : ∀ s ∈ (([("AAA", 0, 0), ("BBB", 90, 0)] :
      List GeoFinder.Candidate)).map Prod.fst, s.length = 3 := by
    intro s hs
    simp only [List.map_cons, List.map_nil, List.mem_cons, List.not_mem_nil, or_false] at hs
    rcases hs with h | h <;> subst h <;> rfl
  exact C10_fix ("AAA", 0, 0) ("BBB", 90, 0) [] 0 0 3 hlen

namespace Qe

/-- Gas constant in J per kelvin per kilogram, module constant of qe.py. -/
def R : ℝ := 287.05

/-- Latent heat of vaporization in J per kilogram, module constant of qe.py. -/
def L_v : ℝ := 2.5e6

/-- Reference vapor pressure in hPa, module constant of qe.py. -/
def e_0 : ℝ := 6.113

/-- Air density, embedding rho of qe.py lines 40-42. -/
noncomputable def rho (T_air p_air : ℝ) : ℝ := p_air * 100 / (R * T_air)

/-- Atmospheric and saturated specific humidity, embedding q of qe.py lines
70-84; temperatures arrive in Kelvin and are shifted to Celsius first. -/
noncomputable def q (T_air T_dew p_air : ℝ) : ℝ × ℝ :=
  let T_airC := T_air - 273.15
  let T_dewC := T_dew - 273.15
  let e := e_0 * Real.exp (17.67 * T_dewC / (T_dewC + 243.5))
  let e_s := e_0 * Real.exp (17.67 * T_airC / (T_airC + 243.5))
  (0.622 * e / (p_air - 0.378 * e), 0.622 * e_s / (p_air - 0.378 * e_s))

/-- Tracked division: when the denominator is zero, numpy emits a non-finite
float (inf or nan) and raises nothing; none stands for that non-finite
result, some for an ordinary finite value. -/
noncomputable def divF (x y : ℝ) : Option ℝ := if y = 0 then none else some (x / y)

/-- Embedding of np.nanmax(sm) at qe.py line 108 for the scalar soil-moisture
input that lhf receives: the maximum of a scalar is the scalar itself. -/
def sm_max (sm : ℝ) : ℝ := sm

/-- Normalized soil water content c_sw = sm / sm_max, qe.py line 109. -/
noncomputable def c_sw (sm : ℝ) : Option ℝ := divF sm (sm_max sm)

/-- Assumed value for minimal stomatal resistance, qe.py line 104. -/
def r_st_min : ℝ := 1e2

/-- Assumed value for maximal stomatal resistance, qe.py line 105. -/
def r_st_max : ℝ := 1e4

/-- Radiation scale constant, qe.py line 106. -/
def c_sd : ℝ := 25

/-- Soil resistance coefficient a, qe.py line 115. -/
def a : ℝ := 3.5

/-- Soil resistance exponent b, qe.py line 116. -/
def b : ℝ := 2.3

/-- Soil resistance offset c, qe.py line 117. -/
def c : ℝ := 433.5

/-- Canopy and soil resistances as computed inline in lhf, qe.py lines
108-118: r_st = r_st_min/c_sw + ((r_st_max-r_st_min)/c_sw)*(1-tanh(S_d/c_sd)),
r_c = r_st/LAI, r_soil = a*(sm_max/sm)^b + c, with every division that can
hit a zero denominator tracked by divF. -/
noncomputable def resistances (sm S_d LAI : ℝ) : Option (ℝ × ℝ) :=
  (c_sw sm).bind fun cw =>
  (divF r_st_min cw).bind fun t1 =>
  (divF (r_st_max - r_st_min) cw).bind fun t2 =>
  (divF (t1 + t2 * (1 - Real.tanh (S_d / c_sd))) LAI).bind fun r_c =>
  (divF (sm_max sm) sm).bind fun ratio =>
  some (r_c, a * ratio ^ b + c)

/-- Latent heat flux, embedding lhf of qe.py lines 94-128. -/
noncomputable def lhf (T_lst T_air T_dew p_air r_av sm S_d LAI : ℝ) : Option ℝ :=
  let q_al := q T_air T_dew p_air
  let q_g := q T_lst T_dew p_air
  (resistances sm S_d LAI).bind fun rr =>
  (divF (rho T_air p_air * (q_al.2 - q_al.1)) (r_av + rr.1)).bind fun Tr =>
  (divF (rho T_air p_air * (q_g.2 - q_al.1)) (r_av + rr.2)).bind fun Ev =>
  some ((Tr + Ev) * L_v)

/-- Modelled from the spec: the FluxModel contract lists soilMoistureMax as a
caller-supplied argument and normalizes c_sw = soilMoisture / soilMoistureMax;
the source lhf has no such parameter. -/
noncomputable def spec_c_sw (soilMoisture soilMoistureMax : ℝ) : ℝ :=
  soilMoisture / soilMoistureMax

lemma tanh_lt_one (x : ℝ) : Real.tanh x < 1 := by
  rw [Real.tanh_eq_sinh_div_cosh]
  exact (div_lt_one (Real.cosh_pos x)).mpr (Real.sinh_lt_cosh x)

/-- Normalization collapses to one for every nonzero scalar soil moisture. -/
lemma c_sw_eq (sm : ℝ) (hsm : sm ≠ 0) : c_sw sm = some 1 := by
  unfold c_sw sm_max divF
  rw [if_neg hsm, div_self hsm]

/-- Closed form of the resistances when soil moisture and leaf area index are
nonzero. -/
lemma resistances_eq (sm S_d LAI : ℝ) (hsm : sm ≠ 0) (hL : LAI ≠ 0) :
    resistances sm S_d LAI =
      some ((r_st_min + (r_st_max - r_st_min) * (1 - Real.tanh (S_d / c_sd))) / LAI, 437) := by
  unfold resistances
  rw [c_sw_eq sm hsm]
  unfold divF sm_max
  rw [if_neg hsm, div_self hsm]
  simp only [Option.some_bind, if_neg one_ne_zero, if_neg hL, div_one, Real.one_rpow]
  norm_num [a, c]

/-- With zero leaf area index the canopy resistance divides by zero and the
result is the non-finite sentinel. -/
lemma resistances_LAI_zero (sm S_d : ℝ) (hsm : sm ≠ 0) : resistances sm S_d 0 = none := by
  unfold resistances
  rw [c_sw_eq sm hsm]
  unfold divF
  simp

/-- With zero soil moisture the normalization divides by zero and the result
is the non-finite sentinel. -/
lemma resistances_sm_zero (S_d LAI : ℝ) : resistances 0 S_d LAI = none := by
  unfold resistances c_sw sm_max divF
  simp

end Qe

/-- C2 counterexample: the normalized soil water content computed by lhf at
soil moisture 0.3 is 1, because the code divides by np.nanmax of the scalar
input itself, while the normalization of the claim with a caller-supplied
maximum 0.4 yields 0.75; lhf has no soilMoistureMax parameter to divide by. -/
theorem C2_cex : Qe.c_sw 0.3 = some 1 ∧ Qe.spec_c_sw 0.3 0.4 ≠ 1 := by
  constructor
  · exact Qe.c_sw_eq 0.3 (by norm_num)
  · unfold Qe.spec_c_sw
    norm_num

/-- C2 amended: lhf takes no soil-moisture maximum from the caller; it sets
sm_max = np.nanmax(sm) internally, so for every nonzero scalar soil-moisture
input the normalized soil water content c_sw equals 1. -/
theorem C2_fix (sm : ℝ) (hsm : sm ≠ 0) : Qe.c_sw sm = some 1 :=
  Qe.c_sw_eq sm hsm

/-- C2 witness: the amended statement at soil moisture 0.4. -/
theorem C2_fix_w : (0.4 : ℝ) ≠ 0 ∧ Qe.c_sw 0.4 = some 1 :=
  ⟨by norm_num, C2_fix 0.4 (by norm_num)⟩

/-- C3 counterexample: at soil moisture -0.1 (≤ 0) with leaf area index 2 the
resistance computation returns plain finite numeric resistances (5000, 437)
and no error at all, and at leaf area index 0 it returns the non-finite
sentinel produced by dividing by zero, again without raising anything. -/
theorem C3_cex :
    Qe.resistances (-0.1) 0 2 = some (5000, 437) ∧ Qe.resistances 0.3 0 0 = none := by
  constructor
  · rw [Qe.resistances_eq (-0.1) 0 2 (by norm_num) (by norm_num)]
    norm_num [Qe.r_st_min, Qe.r_st_max, Qe.c_sd, Real.tanh_zero]
  · exact Qe.resistances_LAI_zero 0.3 0 (by norm_num)

/-- C3 amended: no DivisionSingularity error exists; the resistance
computation always returns. With zero leaf area index or zero soil moisture a
division by zero occurs and the non-finite numpy value (the none sentinel) is
returned, while for negative soil moisture the internal normalization by
np.nanmax of the scalar input cancels and ordinary finite resistances are
returned. -/
theorem C3_fix (sm S_d LAI : ℝ) :
    (sm ≠ 0 → Qe.resistances sm S_d 0 = none) ∧
    Qe.resistances 0 S_d LAI = none ∧
    (sm < 0 → LAI ≠ 0 → Qe.resistances sm S_d LAI =
      some ((Qe.r_st_min + (Qe.r_st_max - Qe.r_st_min) *
        (1 - Real.tanh (S_d / Qe.c_sd))) / LAI, 437)) := by
  refine ⟨fun hsm => Qe.resistances_LAI_zero sm S_d hsm,
    Qe.resistances_sm_zero S_d LAI, fun hsm hL => ?_⟩
  exact Qe.resistances_eq sm S_d LAI (ne_of_lt hsm) hL

/-- C3 witness: the amended statement exercised at soil moisture -0.1 and 0
and leaf area index 0 and 2. -/
theorem C3_fix_w :
    ((-0.1 : ℝ) ≠ 0 ∧ (-0.1 : ℝ) < 0 ∧ (2 : ℝ) ≠ 0) ∧
    Qe.resistances (-0.1) 0 0 = none ∧
    Qe.resistances 0 0 2 = none ∧
    Qe.resistances (-0.1) 0 2 =
      some ((Qe.r_st_min + (Qe.r_st_max - Qe.r_st_min) *
        (1 - Real.tanh (0 / Qe.c_sd))) / 2, 437) :=
  ⟨⟨by norm_num, by norm_num, by norm_num⟩,
    (C3_fix (-0.1) 0 0).1 (by norm_num),
    (C3_fix 0 0 2).2.1,
    (C3_fix (-0.1) 0 2).2.2 (by norm_num) (by norm_num)⟩

/-- C7: when the dewpoint equals the air temperature the actual and saturated
specific humidities computed by q coincide, for every temperature and
pressure. -/
theorem C7_thm (T p : ℝ) : (Qe.q T T p).1 = (Qe.q T T p).2 := rfl

/-- C6: with surface, air, and dewpoint temperatures all equal and with
positive pressure, aerodynamic resistance, soil moisture, and leaf area
index, the latent heat flux is exactly zero in real arithmetic: both specific
humidity deficits vanish and every denominator is strictly positive. -/
theorem C6_thm (T p r_av sm S_d LAI : ℝ)
    (hp : 0 < p) (hr : 0 < r_av) (hsm : 0 < sm) (hL : 0 < LAI) :
    Qe.lhf T T T p r_av sm S_d LAI = some 0 := by
  have hrc : 0 < (Qe.r_st_min + (Qe.r_st_max - Qe.r_st_min) *
      (1 - Real.tanh (S_d / Qe.c_sd))) / LAI := by
    apply div_pos _ hL
    have ht := Qe.tanh_lt_one (S_d / Qe.c_sd)
    have h1 : (0 : ℝ) < Qe.r_st_min := by norm_num [Qe.r_st_min]
    have h2 : (0 : ℝ) < Qe.r_st_max - Qe.r_st_min := by norm_num [Qe.r_st_max, Qe.r_st_min]
    nlinarith
  have hden1 : r_av + (Qe.r_st_min + (Qe.r_st_max - Qe.r_st_min) *
      (1 - Real.tanh (S_d / Qe.c_sd))) / LAI ≠ 0 := ne_of_gt (by linarith)
  have hden2 : r_av + (437 : ℝ) ≠ 0 := ne_of_gt (by linarith)
  have hq : (Qe.q T T p).2 - (Qe.q T T p).1 = 0 := by
    have h : (Qe.q T T p).1 = (Qe.q T T p).2 := rfl
    rw [h, sub_self]
  simp only [Qe.lhf, Qe.resistances_eq sm S_d LAI (ne_of_gt hsm) (ne_of_gt hL),
    Option.some_bind]
  rw [hq, mul_zero]
  simp only [Qe.divF, if_neg hden1, if_neg hden2, Option.some_bind, zero_div]
  norm_num

/-- C6 witness: the flux at 288.15 K everywhere, 1013.25 hPa, aerodynamic
resistance 50, soil moisture 0.3, no shortwave, leaf area index 2. -/
theorem C6_w :
    ((0 : ℝ) < 1013.25 ∧ (0 : ℝ) < 50 ∧ (0 : ℝ) < 0.3 ∧ (0 : ℝ) < 2) ∧
    Qe.lhf 288.15 288.15 288.15 1013.25 50 0.3 0 2 = some 0 :=
  ⟨⟨by norm_num, by norm_num, by norm_num, by norm_num⟩,
    C6_thm 288.15 1013.25 50 0.3 0 2 (by norm_num) (by norm_num) (by norm_num) (by norm_num)⟩

namespace Sd

/-- Pixel window with a missing-value sentinel: none is NaN, some a finite
value. -/
abbrev Window : Type := List (List (Option ℚ))

/-- Embedding of data[dqf != 0] = np.nan, sd.py line 162: pixels whose data
quality flag is nonzero become the NaN sentinel. -/
def maskInvalid (data : Window) (dqf : List (List ℤ)) : Window :=
  List.zipWith
    (fun drow frow => List.zipWith (fun v f => if f ≠ 0 then none else v) drow frow)
    data dqf

/-- Embedding of np.sum(np.isnan(data)): the number of NaN entries. -/
def nanCount (data : Window) : ℕ :=
  (data.map fun row => (row.filter fun v => v.isNone).length).sum

/-- Embedding of data.shape[0]*data.shape[1]: row count times the length of
the first row (numpy arrays are rectangular). -/
def size2 (data : Window) : ℕ :=
  data.length * (data.headD []).length

/-- Embedding of np.zeros(data.shape): every pixel becomes the finite value
zero. -/
def zerosLike (data : Window) : Window :=
  data.map fun row => row.map fun _ => some 0

/-- Tail of s_d, sd.py lines 161-167: invalid pixels become NaN, and if every
entry is NaN the window is assumed to be nighttime and replaced by zeros. -/
def s_d_window (data : Window) (dqf : List (List ℤ)) : Window :=
  let d := maskInvalid data dqf
  if nanCount d = size2 d then zerosLike d else d

/-- Masking one row whose flags are all nonzero yields an all-NaN row. -/
lemma maskRow_all_none (drow : List (Option ℚ)) (frow : List ℤ)
    (hlen : drow.length = frow.length) (hf : ∀ x ∈ frow, x ≠ 0) :
    List.zipWith (fun v f => if f ≠ 0 then none else v) drow frow
      = drow.map fun _ => (none : Option ℚ) := by
  induction drow generalizing frow with
  | nil => simp
  | cons v vs ih =>
    cases frow with
    | nil => simp at hlen
    | cons f fs =>
      simp only [List.zipWith_cons_cons, List.map_cons]
      rw [if_pos (hf f (List.mem_cons_self f fs)),
        ih fs (by simpa using hlen) (fun x hx => hf x (List.mem_cons_of_mem f hx))]

/-- Masking a window whose flags are all nonzero yields an all-NaN window. -/
lemma mask_all_none (data : Window) (dqf : List (List ℤ)) (L : ℕ)
    (hlen : data.length = dqf.length)
    (hrows : ∀ row ∈ data, row.length = L)
    (hfrows : ∀ row ∈ dqf, row.length = L)
    (hall : ∀ row ∈ dqf, ∀ x ∈ row, x ≠ 0) :
    maskInvalid data dqf = data.map fun row => row.map fun _ => (none : Option ℚ) := by
  induction data generalizing dqf with
  | nil => simp [maskInvalid]
  | cons drow dtail ih =>
    cases dqf with
    | nil => simp at hlen
    | cons frow ftail =>
      have hstep : maskInvalid (drow :: dtail) (frow :: ftail) =
          (List.zipWith (fun v f => if f ≠ 0 then none else v) drow frow) ::
            maskInvalid dtail ftail := rfl
      rw [hstep,
        maskRow_all_none drow frow
          (by rw [hrows drow (List.mem_cons_self drow dtail),
            hfrows frow (List.mem_cons_self frow ftail)])
          (hall frow (List.mem_cons_self frow ftail)),
        ih ftail (by simpa using hlen)
          (fun row hr => hrows row (List.mem_cons_of_mem drow hr))
          (fun row hr => hfrows row (List.mem_cons_of_mem frow hr))
          (fun row hr => hall row (List.mem_cons_of_mem frow hr)),
        List.map_cons]

/-- Every entry of an all-NaN window counts as NaN. -/
lemma nanCount_all_none (data : Window) :
    nanCount (data.map fun row => row.map fun _ => (none : Option ℚ)) =
      (data.map List.length).sum := by
  unfold nanCount
  rw [List.map_map]
  refine congrArg List.sum (List.map_congr_left fun row hrow => ?_)
  show ((row.map fun _ => (none : Option ℚ)).filter fun v => v.isNone).length = row.length
  rw [List.filter_eq_self.mpr, List.length_map]
  intro v hv
  rcases List.mem_map.mp hv with ⟨w, hw, hv2⟩
  rw [← hv2]
  rfl

/-- With rows all of length L, the list of row lengths sums to the row count
times L. -/
lemma sum_lengths (data : Window) (L : ℕ) (hrows : ∀ row ∈ data, row.length = L) :
    (data.map List.length).sum = data.length * L := by
  induction data with
  | nil => simp
  | cons drow dtail ih =>
    simp only [List.map_cons, List.sum_cons, List.length_cons]
    rw [hrows drow (List.mem_cons_self drow dtail),
      ih (fun row hr => hrows row (List.mem_cons_of_mem drow hr))]
    ring

end Sd

/-- C4 counterexample: a one-by-two pixel window in which every pixel is
flagged invalid is replaced by zeros by the nighttime assumption of s_d, so
the extracted values surface as the finite value 0, not as the missing-value
sentinel. -/
theorem C4_cex :
    Sd.s_d_window [[some 5, some 7]] [[1, 1]] = [[some 0, some 0]] := by decide

/-- C4 amended: masking keeps missing pixels missing, but when every pixel of
the window is flagged invalid the all-NaN window is replaced by an all-zero
window (the nighttime assumption), so fully-missing windows surface as zeros
rather than as missing values. -/
theorem C4_fix (data : Sd.Window) (dqf : List (List ℤ)) (L : ℕ)
    (hlen : data.length = dqf.length)
    (hrows : ∀ row ∈ data, row.length = L)
    (hfrows : ∀ row ∈ dqf, row.length = L)
    (hall : ∀ row ∈ dqf, ∀ x ∈ row, x ≠ 0) :
    Sd.s_d_window data dqf = Sd.zerosLike data ∧
    ∀ row ∈ Sd.maskInvalid data dqf, ∀ v ∈ row, v = none := by
  have hmask := Sd.mask_all_none data dqf L hlen hrows hfrows hall
  have hcount : Sd.nanCount (Sd.maskInvalid data dqf) = Sd.size2 (Sd.maskInvalid data dqf) := by
    rw [hmask, Sd.nanCount_all_none, Sd.sum_lengths data L hrows]
    unfold Sd.size2
    cases data with
    | nil => simp
    | cons drow dtail =>
      simp only [List.map_cons, List.length_cons, List.headD_cons, List.length_map]
      rw [hrows drow (List.mem_cons_self drow dtail)]
  constructor
  · unfold Sd.s_d_window
    rw [if_pos hcount, hmask]
    unfold Sd.zerosLike
    rw [List.map_map]
    refine List.map_congr_left fun row hrow => ?_
    show ((row.map fun _ => (none : Option ℚ)).map fun _ => some 0) = row.map fun _ => some 0
    rw [List.map_map]
    rfl
  · intro row hrow v hv
    rw [hmask] at hrow
    rcases List.mem_map.mp hrow with ⟨r, hr, hrow2⟩
    rw [← hrow2] at hv
    rcases List.mem_map.mp hv with ⟨w, hw, hv2⟩
    exact hv2.symm

/-- C4 witness: the amended statement at the concrete all-invalid one-by-two
window. -/
theorem C4_fix_w :
    Sd.s_d_window [[some 5, some 7]] [[1, 1]] = Sd.zerosLike [[some 5, some 7]] ∧
    ∀ row ∈ Sd.maskInvalid [[some 5, some 7]] [[1, 1]], ∀ v ∈ row, v = none := by
  refine C4_fix [[some 5, some 7]] [[1, 1]] 2 rfl ?_ ?_ ?_
  · intro row hrow
    simp only [List.mem_cons, List.not_mem_nil, or_false] at hrow
    rw [hrow]
    rfl
  · intro row hrow
    simp only [List.mem_cons, List.not_mem_nil, or_false] at hrow
    rw [hrow]
    rfl
  · intro row hrow x hx
    simp only [List.mem_cons, List.not_mem_nil, or_false] at hrow
    rw [hrow] at hx
    simp only [List.mem_cons, List.not_mem_nil, or_false] at hx
    rcases hx with h | h <;> rw [h] <;> decide

namespace Smap

/-- Python slice l[:k] for an integer k: a nonnegative k takes the first k
elements, a negative k drops the last -k elements. -/
def pyHead {α : Type} (l : List α) (k : ℤ) : List α :=
  if 0 ≤ k then l.take k.toNat else l.take (l.length - (-k).toNat)

/-- Square truncation at the end of main, grid/smap.py lines 149-158: the
axis length difference dim_diff is the latitude length minus the longitude
length, and both nonzero branches slice with [:-dim_diff]. -/
def squareAxes {α : Type} (lat lon : List α) : List α × List α :=
  let dim_diff : ℤ := (lat.length : ℤ) - (lon.length : ℤ)
  if 0 < dim_diff then (pyHead lat (-dim_diff), lon)
  else if dim_diff < 0 then (lat, pyHead lon (-dim_diff))
  else (lat, lon)

end Smap

/-- C9: evaluating the square truncation in both orientations. When the
latitude axis is longer (5 versus 3) the returned axes both have length 3,
but when the longitude axis is longer (3 versus 5) the slice lon[:-dim_diff]
with negative dim_diff keeps the first lon-minus-lat entries, so the axes
come back with lengths 3 and 2 and are not square, against the claim and the
comment in the source. -/
theorem C9_thm :
    (Smap.squareAxes [1, 2, 3, 4, 5] [10, 20, 30]).1.length = 3 ∧
    (Smap.squareAxes [1, 2, 3, 4, 5] [10, 20, 30]).2.length = 3 ∧
    (Smap.squareAxes [1, 2, 3] [10, 20, 30, 40, 50]).1.length = 3 ∧
    (Smap.squareAxes [1, 2, 3] [10, 20, 30, 40, 50]).2.length = 2 := by decide

namespace Ameriflux

/-- Rows the right join produces for grid hour t (pd.merge how=right on
datetime, reader.py line 145): every sample row whose timestamp equals t, or
a single missing-value row when there is none. -/
def mergeRight {α : Type} (samples : List (ℕ × α)) (t : ℕ) : List (ℕ × Option α) :=
  let hits := samples.filter fun sm => sm.1 = t
  if hits.isEmpty then [(t, none)] else hits.map fun sm => (sm.1, some sm.2)

/-- Hourly alignment of csv_reader, reader.py lines 136-148: the end date is
advanced one hour, samples outside [start, end+1] are filtered out, samples
are right-joined onto the hourly grid from start to end+1, and the trailing
row is dropped. The join output is already in ascending hour order, so the
subsequent sort by datetime leaves the rows in place. -/
def align {α : Type} (samples : List (ℕ × α)) (start_d end_d : ℕ) : List (ℕ × Option α) :=
  let endAdj := end_d + 1
  let inWindow := samples.filter fun sm => start_d ≤ sm.1 ∧ sm.1 ≤ endAdj
  let grid := (List.range (endAdj - start_d + 1)).map fun i => start_d + i
  ((grid.map (mergeRight inWindow)).flatten).dropLast

/-- With pairwise distinct timestamps the right join emits exactly one row
per grid hour, carrying the first (unique) matching sample if any. -/
lemma mergeRight_nodup {α : Type} (l : List (ℕ × α)) (t : ℕ)
    (hnd : (l.map Prod.fst).Nodup) :
    mergeRight l t = [(t, (l.find? fun sm => sm.1 = t).map Prod.snd)] := by
  induction l with
  | nil => rfl
  | cons x l ih =>
    rw [List.map_cons, List.nodup_cons] at hnd
    by_cases hx : x.1 = t
    · have hnone : ∀ y ∈ l, ¬(y.1 = t) := by
        intro y hy hyt
        exact hnd.1 (hx ▸ hyt ▸ List.mem_map_of_mem Prod.fst hy)
      have hfil : l.filter (fun sm => sm.1 = t) = [] :=
        List.filter_eq_nil_iff.mpr (by simpa using hnone)
      unfold mergeRight
      rw [List.filter_cons_of_pos (by simpa using hx), hfil]
      rw [List.find?_cons_of_pos _ (by simpa using hx)]
      simp [hx]
    · unfold mergeRight at ih ⊢
      rw [List.filter_cons_of_neg (by simpa using hx),
        List.find?_cons_of_neg _ (by simpa using hx)]
      exact ih hnd.2

/-- Flattening a list of singleton blocks is the list of their contents. -/
lemma flatten_singletons {β : Type} (g : List ℕ) (F : ℕ → List β) (f : ℕ → β)
    (h : ∀ t ∈ g, F t = [f t]) : (g.map F).flatten = g.map f := by
  induction g with
  | nil => rfl
  | cons t g ih =>
    rw [List.map_cons, List.flatten_cons, h t (List.mem_cons_self t g),
      ih (fun u hu => h u (List.mem_cons_of_mem t hu)), List.map_cons,
      List.singleton_append]

/-- Closed form of the alignment under pairwise distinct timestamps: one row
per hour from start to end, each carrying the unique matching in-window
sample if any. -/
lemma align_eq {α : Type} (samples : List (ℕ × α)) (s e : ℕ)
    (hnd : (samples.map Prod.fst).Nodup) (hse : s ≤ e) :
    align samples s e = (List.range ((e - s) + 1)).map fun i =>
      (s + i, ((samples.filter fun sm => s ≤ sm.1 ∧ sm.1 ≤ e + 1).find?
          fun sm => sm.1 = s + i).map Prod.snd) := by
  have hndW : ((samples.filter fun sm => s ≤ sm.1 ∧ sm.1 ≤ e + 1).map Prod.fst).Nodup :=
    List.Nodup.sublist ((List.filter_sublist samples).map Prod.fst) hnd
  simp only [align]
  rw [flatten_singletons _ _ _ (fun t _ => mergeRight_nodup _ t hndW)]
  rw [List.map_map, show e + 1 - s + 1 = ((e - s) + 1) + 1 by omega,
    List.range_succ, List.map_append, List.map_cons, List.map_nil, List.dropLast_concat]
  rfl

end Ameriflux

/-- C8 counterexample: two samples sharing the timestamp 0 over the
one-hour window from 0 to 1 produce three output rows (the right join
duplicates the matched hour and dropping one trailing row does not recover),
not the floor((end-start).hours) + 1 = 2 rows the claim promises. -/
theorem C8_cex :
    (Ameriflux.align [(0, 10), (0, 20)] 0 1).length = 3 ∧ (3 : ℕ) ≠ (1 - 0) + 1 := by
  decide

/-- C8 amended: over an integer-hour window with start at most end and
pairwise distinct sample timestamps, the alignment returns exactly
(end - start) + 1 rows, one per boundary-inclusive hour in ascending order,
and a row carries the missing sentinel, never a zero, exactly when no sample
has that hour. -/
theorem C8_fix {α : Type} (samples : List (ℕ × α)) (s e : ℕ)
    (hnd : (samples.map Prod.fst).Nodup) (hse : s ≤ e) :
    (Ameriflux.align samples s e).length = (e - s) + 1 ∧
    (Ameriflux.align samples s e).map Prod.fst =
      (List.range ((e - s) + 1)).map (fun i => s + i) ∧
    ∀ p ∈ Ameriflux.align samples s e, (p.2 = none ↔ ∀ v : α, (p.1, v) ∉ samples) := by
  rw [Ameriflux.align_eq samples s e hnd hse]
  refine ⟨by simp, by simp, ?_⟩
  intro p hp
  rcases List.mem_map.mp hp with ⟨i, hi, hpi⟩
  rw [List.mem_range] at hi
  rw [← hpi]
  simp only [Option.map_eq_none']
  rw [List.find?_eq_none]
  constructor
  · intro h v hv
    have hmem : ((s + i, v) : ℕ × α) ∈ samples.filter fun sm => s ≤ sm.1 ∧ sm.1 ≤ e + 1 :=
      List.mem_filter.mpr ⟨hv, by simp; omega⟩
    exact absurd (by simp : decide ((s + i, v).1 = s + i) = true) (by simpa using h _ hmem)
  · intro h x hx hbad
    have hx1 : x.1 = s + i := by simpa using hbad
    have hxs : x ∈ samples := (List.mem_filter.mp hx).1
    have : ((s + i, x.2) : ℕ × α) ∈ samples := by
      rw [← hx1]
      simpa using hxs
    exact h x.2 this

/-- C8 witness: the amended statement at a single sample at hour 1 over the
window from 0 to 1. -/
theorem C8_fix_w :
    (([((1 : ℕ), (42 : ℕ))].map Prod.fst).Nodup ∧ (0 : ℕ) ≤ 1) ∧
    (Ameriflux.align [(1, 42)] 0 1).length = (1 - 0) + 1 ∧
    (Ameriflux.align [(1, 42)] 0 1).map Prod.fst =
      (List.range ((1 - 0) + 1)).map (fun i => 0 + i) ∧
    ∀ p ∈ Ameriflux.align [(1, 42)] 0 1, (p.2 = none ↔ ∀ v : ℕ, (p.1, v) ∉ [(1, 42)]) :=
  ⟨⟨by decide, by decide⟩, C8_fix [(1, 42)] 0 1 (by decide) (by decide)⟩
